import Mathlib

/-!
# Go programming patterns: a shallow embedding

Definitions follow `datasets/go_programming_patterns.go`.  Calls into the Go
standard library and into collaborators the file does not define are either
parameters of the embedded function or events of an explicit trace.
-/

namespace GoPatterns

/-! ## Values shared by several fragments -/

/-- A Go error value: its message and, for an error built with the `%w` verb,
the error it wraps. -/
inductive GoError where
  | plain (msg : String)
  | wrapping (msg : String) (inner : GoError)
  deriving DecidableEq, Repr

/-- The `Error()` method: the message of the error. -/
def GoError.Error : GoError → String
  | .plain msg => msg
  | .wrapping msg _ => msg

/-- The `Unwrap()` method: the wrapped error, when there is one. -/
def GoError.Unwrap : GoError → Option GoError
  | .plain _ => none
  | .wrapping _ inner => some inner

/-- The call `fmt.Errorf(lead + "%w", err)` for a literal text `lead`. -/
def ErrorfW (lead : String) (err : GoError) : GoError :=
  .wrapping (lead ++ err.Error) err

/-- The call `fmt.Errorf(lead + "%d", n)` for a literal text `lead`: no `%w`,
so nothing is wrapped. -/
def ErrorfD (lead : String) (n : Int) : GoError :=
  .plain (lead ++ toString n)

/-- Two's-complement reduction of an integer to a signed word of `bits` bits,
the result of Go's integer arithmetic on a type of that width. -/
def wrapInt (bits : Nat) (x : Int) : Int :=
  (x + 2 ^ (bits - 1)) % 2 ^ bits - 2 ^ (bits - 1)

/-! ## processData -/

/-- The function `processData`, lines 24-30.  `ToUpper` stands for
`strings.ToUpper`; the named result starts as the nil slice (the empty list)
and grows by one `append` per item; the error returned is always nil. -/
def processData (ToUpper : String → String) (data : List String) :
    List String × Option GoError :=
  (data.foldl (fun result item => result ++ [ToUpper item]) [], none)

/-! ## worker -/

/-- A channel of integers: the values in its buffer, oldest first, the capacity
of the buffer (0 for an unbuffered channel) and whether it has been closed. -/
structure Chan where
  buffer : List Int
  capacity : Nat
  closed : Bool
  deriving DecidableEq, Repr

/-- The goroutine at the receiving end of the results channel: the values it
has received, oldest first, and how many more receives it will perform. -/
structure Receiver where
  received : List Int
  pending : Nat
  deriving DecidableEq, Repr

/-- The send `results <- v` on an open channel.  With room in the buffer the
value is queued.  With a full buffer, which an unbuffered channel always has,
the send waits for a receive: the receiver takes the oldest value, which is `v`
itself when the buffer is empty.  With a full buffer and no receive to come the
send never completes, which is `none`. -/
def Chan.send (results : Chan) (rcv : Receiver) (v : Int) : Option (Chan × Receiver) :=
  if results.buffer.length < results.capacity then
    some ({ results with buffer := results.buffer ++ [v] }, rcv)
  else if rcv.pending = 0 then none
  else
    match results.buffer with
    | [] => some (results, { received := rcv.received ++ [v], pending := rcv.pending - 1 })
    | oldest :: rest =>
        some ({ results with buffer := rest ++ [v] },
              { received := rcv.received ++ [oldest], pending := rcv.pending - 1 })

/-- The values sent on a channel so far, oldest first: those the receiver has
taken and those still in the buffer. -/
def published (results : Chan) (rcv : Receiver) : List Int :=
  rcv.received ++ results.buffer

/-- How many further sends on a channel can complete: the free slots of its
buffer and the receives still to come. -/
def room (results : Chan) (rcv : Receiver) : Nat :=
  (results.capacity - results.buffer.length) + rcv.pending

/-- How a run of `worker` ends: the results channel and its receiver as the
worker leaves them and the total time slept, in nanoseconds. -/
inductive WorkerEnd where
  /-- The range loop ended and the function returned. -/
  | returned (results : Chan) (rcv : Receiver) (slept : Int)
  /-- The jobs channel is drained but not closed: the receive never completes. -/
  | blockedReceive (results : Chan) (rcv : Receiver) (slept : Int)
  /-- The results channel is full and nobody receives: the send never completes. -/
  | blockedSend (results : Chan) (rcv : Receiver) (slept : Int)
  /-- A send on a closed results channel. -/
  | panicked
  deriving DecidableEq, Repr

/-- The constant `time.Millisecond`, in nanoseconds. -/
def Millisecond : Int := 1000000

/-- The constant `time.Second`, in nanoseconds. -/
def Second : Int := 1000000000

/-- The loop of `worker`, lines 92-95, over the values still queued in `jobs`:
each iteration receives one job, sleeps `time.Millisecond * 100` and sends
`job * 2`, computed in the `bits`-bit type `int`, on `results`. -/
def workerLoop (bits : Nat) (jobsClosed : Bool) :
    List Int → Chan → Receiver → Int → WorkerEnd
  | [], results, rcv, slept =>
      if jobsClosed then .returned results rcv slept else .blockedReceive results rcv slept
  | job :: rest, results, rcv, slept =>
      if results.closed then .panicked
      else
        match results.send rcv (wrapInt bits (job * 2)) with
        | none => .blockedSend results rcv (slept + wrapInt 64 (Millisecond * 100))
        | some next =>
            workerLoop bits jobsClosed rest next.1 next.2
              (slept + wrapInt 64 (Millisecond * 100))

/-- The function `worker`, lines 91-96: `jobs` holds the values placed on the
jobs channel, `results` and `rcv` are the results channel and its receiver. -/
def worker (bits : Nat) (jobs results : Chan) (rcv : Receiver) : WorkerEnd :=
  workerLoop bits jobs.closed jobs.buffer results rcv 0

/-! ## handleUser and startServer -/

/-- The constant `http.MethodGet`. -/
def MethodGet : String := "GET"
/-- The constant `http.MethodPost`. -/
def MethodPost : String := "POST"
/-- The constant `http.MethodPut`. -/
def MethodPut : String := "PUT"
/-- The constant `http.MethodDelete`. -/
def MethodDelete : String := "DELETE"
/-- The constant `http.StatusMethodNotAllowed`. -/
def StatusMethodNotAllowed : Int := 405
/-- The constant `http.StatusOK`. -/
def StatusOK : Int := 200

/-- A handle on an `http.ResponseWriter`. -/
abbrev ResponseWriter := Nat

/-- The part of `*http.Request` the dispatcher can tell requests apart by. -/
structure Request where
  Method : String
  Path : String
  deriving DecidableEq, Repr

/-- The five functions `handleUser` can call. -/
inductive Callee where
  | getUserHandler
  | createUserHandler
  | updateUserHandler
  | deleteUserHandler
  | httpError
  deriving DecidableEq, Repr

/-- One call made by `handleUser`, with its arguments: a per-verb handler
applied to the writer and the request, or `http.Error` applied to the writer,
the message and the status code. -/
inductive Call where
  | getUserHandler (w : ResponseWriter) (r : Request)
  | createUserHandler (w : ResponseWriter) (r : Request)
  | updateUserHandler (w : ResponseWriter) (r : Request)
  | deleteUserHandler (w : ResponseWriter) (r : Request)
  | httpError (w : ResponseWriter) (error : String) (code : Int)
  deriving DecidableEq, Repr

/-- The function a call goes to. -/
def Call.callee : Call → Callee
  | .getUserHandler _ _ => .getUserHandler
  | .createUserHandler _ _ => .createUserHandler
  | .updateUserHandler _ _ => .updateUserHandler
  | .deleteUserHandler _ _ => .deleteUserHandler
  | .httpError _ _ _ => .httpError

/-- Whether a call is to one of the four per-verb handlers. -/
def Call.isVerbHandler (c : Call) : Bool :=
  c.callee != .httpError

/-- The function `handleUser`, lines 99-112: the calls it makes, in order. -/
def handleUser (w : ResponseWriter) (r : Request) : List Call :=
  if r.Method = MethodGet then [.getUserHandler w r]
  else if r.Method = MethodPost then [.createUserHandler w r]
  else if r.Method = MethodPut then [.updateUserHandler w r]
  else if r.Method = MethodDelete then [.deleteUserHandler w r]
  else [.httpError w "Method not allowed" StatusMethodNotAllowed]

/-- The two functions `startServer` registers. -/
inductive HandlerFunc where
  | handleUser
  | healthCheck
  deriving DecidableEq, Repr

/-- An `http.ServeMux`: the registered patterns with their handlers, in
registration order. -/
structure ServeMux where
  routes : List (String × HandlerFunc)
  deriving DecidableEq, Repr

/-- The call `http.NewServeMux()`. -/
def NewServeMux : ServeMux := ⟨[]⟩

/-- The method `HandleFunc` of a mux. -/
def ServeMux.HandleFunc (mux : ServeMux) (pattern : String) (handler : HandlerFunc) :
    ServeMux :=
  ⟨mux.routes ++ [(pattern, handler)]⟩

/-- The fields of `http.Server` that `startServer` sets; the timeouts are
`time.Duration` values, nanoseconds in a signed 64-bit integer. -/
structure Server where
  Addr : String
  Handler : ServeMux
  ReadTimeout : Int
  WriteTimeout : Int
  deriving DecidableEq, Repr

/-- What `startServer` does before it hands control to `ListenAndServe`. -/
structure Startup where
  server : Server
  logged : String
  deriving DecidableEq, Repr

/-- The function `startServer`, lines 114-128, up to the call of
`ListenAndServe` on the server it has built. -/
def startServer : Startup :=
  let mux := NewServeMux
  let mux := mux.HandleFunc "/users" .handleUser
  let mux := mux.HandleFunc "/health" .healthCheck
  let server : Server :=
    { Addr := ":8080"
      Handler := mux
      ReadTimeout := wrapInt 64 (15 * Second)
      WriteTimeout := wrapInt 64 (15 * Second) }
  { server := server, logged := "Server starting on " ++ server.Addr }

/-! ## fetchData -/

/-- An `*http.Response` as far as `fetchData` reads it; `β` is the type of the
body. -/
structure Response (β : Type) where
  StatusCode : Int
  Body : β

/-- What a call of `fetchData` returns and whether it closed the body. -/
structure Fetched where
  data : Option (List Nat)
  err : Option GoError
  bodyClosed : Bool
  deriving DecidableEq, Repr

/-- The function `fetchData`, lines 76-88.  `Get` stands for `http.Get` and
`ReadAll` for `io.ReadAll`; a nil slice is `none`. -/
def fetchData {β : Type} (Get : String → Except GoError (Response β))
    (ReadAll : β → Option (List Nat) × Option GoError) (url : String) : Fetched :=
  match Get url with
  | .error err =>
      { data := none, err := some (ErrorfW "failed to fetch data: " err), bodyClosed := false }
  | .ok resp =>
      if resp.StatusCode ≠ StatusOK then
        { data := none
          err := some (ErrorfD "unexpected status code: " resp.StatusCode)
          bodyClosed := true }
      else
        let read := ReadAll resp.Body
        { data := read.1, err := read.2, bodyClosed := true }

/-! ## User, UserService and CreateUser -/

/-- The struct `User`, lines 33-38; `Created` is an instant. -/
structure User where
  ID : Int
  Name : String
  Email : String
  Created : Int
  deriving DecidableEq, Repr

/-- A `*User`: the index of a record among the allocated ones. -/
abbrev Ptr := Nat

/-- The `User` records allocated so far. -/
structure Heap where
  cells : List User
  deriving DecidableEq, Repr

/-- Allocation of a fresh record: its address and the heap holding it. -/
def Heap.alloc (h : Heap) (u : User) : Ptr × Heap :=
  (h.cells.length, ⟨h.cells ++ [u]⟩)

/-- The record a pointer points at. -/
def Heap.deref (h : Heap) (p : Ptr) : Option User :=
  h.cells[p]?

/-- The state of a `sync.RWMutex`: whether a writer holds it and how many
readers do. -/
structure RWMutex where
  writer : Bool
  readers : Nat
  deriving DecidableEq, Repr

/-- Nobody holds the lock. -/
def RWMutex.free (m : RWMutex) : Bool :=
  !m.writer && m.readers == 0

/-- The method `Lock`: it succeeds on a free lock; on a held lock the caller
waits, which is `none`. -/
def RWMutex.Lock (m : RWMutex) : Option RWMutex :=
  if m.free then some { m with writer := true } else none

/-- The method `Unlock`: it releases a lock held by a writer; on any other lock
it is a fatal error of the runtime, which is `none`. -/
def RWMutex.Unlock (m : RWMutex) : Option RWMutex :=
  if m.writer then some { m with writer := false } else none

/-- What a call of `Save` returns and leaves behind: the error, the state of
the storage and the heap, which `Save` reaches through the pointer it is given. -/
structure Saved (σ : Type) where
  err : Option GoError
  store : σ
  heap : Heap

/-- The interface `Database` as far as the file uses it: the method `Save`,
over a storage state of type `σ`. -/
structure Database (σ : Type) where
  Save : σ → Heap → Ptr → Saved σ

/-- The struct `UserService`, lines 40-45.  The file does not declare the types
of its collaborators: `Cache` and `Logger` are parameters. -/
structure UserService (σ Cache Logger : Type) where
  db : Database σ
  cache : Cache
  logger : Logger
  mutex : RWMutex

/-- What `CreateUser` can observe or change outside the service: the heap, the
instant `time.Now()` returns and the state behind the storage collaborator. -/
structure World (σ : Type) where
  heap : Heap
  clock : Int
  store : σ

/-- The calls a method of the service can make, in the order they happen. -/
inductive Event where
  | mutexLock
  | mutexUnlock
  | timeNow (t : Int)
  | newUser (p : Ptr)
  | dbSave (p : Ptr)
  | dbSaveReturn (err : Option GoError)
  | cacheCall
  | loggerCall
  deriving DecidableEq, Repr

/-- Whether an event is a call of `Save`. -/
def Event.isSave : Event → Bool
  | .dbSave _ => true
  | _ => false

/-- Whether an event is a call of `time.Now`. -/
def Event.isTimeNow : Event → Bool
  | .timeNow _ => true
  | _ => false

/-- Whether an event is a call on the cache or on the logger. -/
def Event.isCacheOrLogger : Event → Bool
  | .cacheCall => true
  | .loggerCall => true
  | _ => false

/-- The service, the world around it and the calls made so far. -/
structure State (σ Cache Logger : Type) where
  svc : UserService σ Cache Logger
  world : World σ
  trace : List Event

/-- The control points of one activation of `CreateUser`, lines 58-73. -/
inductive Frame where
  /-- Called, before `s.mutex.Lock()`. -/
  | entry (name email : String)
  /-- The lock is held and the unlock deferred, before the record is built. -/
  | locked (name email : String)
  /-- The record is built, before `s.db.Save(user)`. -/
  | built (user : Ptr)
  /-- Inside the call of `Save`. -/
  | saving (user : Ptr)
  /-- The call of `Save` has returned `err`, before the return statement. -/
  | saved (user : Ptr) (err : Option GoError)
  /-- The deferred unlock has run and the function has returned. -/
  | returned (user : Option Ptr) (err : Option GoError)
  deriving DecidableEq, Repr

/-- Whether an activation at this control point holds the lock. -/
def Frame.holdsLock : Frame → Bool
  | .locked _ _ => true
  | .built _ => true
  | .saving _ => true
  | .saved _ _ => true
  | _ => false

/-- Whether an activation at this control point is inside `Save`. -/
def Frame.inSave : Frame → Bool
  | .saving _ => true
  | _ => false

/-- One step of an activation of `CreateUser`; `none` when the activation
cannot move: it waits for the lock, or it has returned. -/
def step {σ Cache Logger : Type} (st : State σ Cache Logger) :
    Frame → Option (State σ Cache Logger × Frame)
  | .entry name email =>
      match st.svc.mutex.Lock with
      | none => none
      | some m =>
          some ({ st with svc := { st.svc with mutex := m }
                          trace := st.trace ++ [.mutexLock] },
                .locked name email)
  | .locked name email =>
      let now := st.world.clock
      let fresh := st.world.heap.alloc { ID := 0, Name := name, Email := email, Created := now }
      some ({ st with world := { st.world with heap := fresh.2 }
                      trace := st.trace ++ [.timeNow now, .newUser fresh.1] },
            .built fresh.1)
  | .built user =>
      some ({ st with trace := st.trace ++ [.dbSave user] }, .saving user)
  | .saving user =>
      let r := st.svc.db.Save st.world.store st.world.heap user
      some ({ st with world := { st.world with heap := r.heap, store := r.store }
                      trace := st.trace ++ [.dbSaveReturn r.err] },
            .saved user r.err)
  | .saved user err =>
      match st.svc.mutex.Unlock with
      | none => none
      | some m =>
          let st' : State σ Cache Logger :=
            { st with svc := { st.svc with mutex := m }
                      trace := st.trace ++ [.mutexUnlock] }
          match err with
          | some e => some (st', .returned none (some (ErrorfW "failed to save user: " e)))
          | none => some (st', .returned (some user) none)
  | .returned _ _ => none

/-- At most `fuel` steps of one activation, run without interruption. -/
def run {σ Cache Logger : Type} :
    Nat → State σ Cache Logger → Frame → State σ Cache Logger × Frame
  | 0, st, f => (st, f)
  | fuel + 1, st, f =>
      match step st f with
      | none => (st, f)
      | some next => run fuel next.1 next.2

/-- What a call of `CreateUser` returns and the state it leaves. -/
structure Outcome (σ Cache Logger : Type) where
  user : Option Ptr
  err : Option GoError
  state : State σ Cache Logger

/-- The method `CreateUser`, lines 58-73, run on its own from `st`: its five
steps in a row; `none` when the call does not return. -/
def CreateUser {σ Cache Logger : Type} (st : State σ Cache Logger) (name email : String) :
    Option (Outcome σ Cache Logger) :=
  match run 5 st (.entry name email) with
  | (st', .returned user err) => some { user := user, err := err, state := st' }
  | _ => none

/-- Goroutines calling `CreateUser` on one service: the shared state and the
control point of each goroutine. -/
structure Config (σ Cache Logger : Type) where
  shared : State σ Cache Logger
  frames : Nat → Frame

/-- A configuration all goroutines start from: the lock is free and every
goroutine is about to call `CreateUser`. -/
def Config.initial {σ Cache Logger : Type} (c : Config σ Cache Logger) : Prop :=
  c.shared.svc.mutex.free = true ∧ ∀ i, ∃ name email, c.frames i = .entry name email

/-- One move of the system: some goroutine takes a step of its activation, a
goroutine that has returned calls `CreateUser` again, or time passes. -/
inductive Config.Step {σ Cache Logger : Type} :
    Config σ Cache Logger → Config σ Cache Logger → Prop where
  | thread (c : Config σ Cache Logger) (i : Nat) (st' : State σ Cache Logger) (f' : Frame)
      (h : step c.shared (c.frames i) = some (st', f')) :
      Config.Step c ⟨st', Function.update c.frames i f'⟩
  | call (c : Config σ Cache Logger) (i : Nat) (user : Option Ptr) (err : Option GoError)
      (name email : String) (h : c.frames i = .returned user err) :
      Config.Step c ⟨c.shared, Function.update c.frames i (.entry name email)⟩
  | tick (c : Config σ Cache Logger) (t : Int) :
      Config.Step c
        ⟨{ c.shared with world := { c.shared.world with clock := t } }, c.frames⟩

/-- The configurations the system can be in. -/
inductive Config.Reachable {σ Cache Logger : Type} : Config σ Cache Logger → Prop where
  | start (c : Config σ Cache Logger) (h : c.initial) : Config.Reachable c
  | next (c c' : Config σ Cache Logger) (hc : Config.Reachable c) (hs : Config.Step c c') :
      Config.Reachable c'

/-! ## Sample collaborators -/

/-- A transport that fails for every address. -/
def sampleGetDown : String → Except GoError (Response (List Nat)) :=
  fun _ => .error (.plain "dial tcp: connection refused")

/-- A transport that answers every address with the given status and body. -/
def sampleGetStatus (code : Int) (body : List Nat) :
    String → Except GoError (Response (List Nat)) :=
  fun _ => .ok { StatusCode := code, Body := body }

/-- A reader that returns the whole body and no error. -/
def sampleReadAll (body : List Nat) : Option (List Nat) × Option GoError :=
  (some body, none)

/-- A storage that refuses every record. -/
def sampleFailingDb : Database Unit :=
  ⟨fun store heap _ => ⟨some (.plain "disk full"), store, heap⟩⟩

/-- A storage that counts the calls of `Save` and refuses every record. -/
def sampleRefusingDb : Database Nat :=
  ⟨fun store heap _ => ⟨some (.plain "disk full"), store + 1, heap⟩⟩

/-- A storage that accepts every record and counts them. -/
def sampleCountingDb : Database Nat :=
  ⟨fun store heap _ => ⟨none, store + 1, heap⟩⟩

/-- A service around the given storage, its lock free, in a world with an
empty heap. -/
def sampleState {σ : Type} (db : Database σ) (store : σ) : State σ Unit Unit :=
  { svc := { db := db, cache := (), logger := (), mutex := ⟨false, 0⟩ }
    world := { heap := ⟨[]⟩, clock := 1700000000, store := store }
    trace := [] }

/-! ## Goroutines sharing one service -/

/-- What holds in every configuration the goroutines can reach: no reader
holds the lock, a goroutine between its lock and its unlock holds it as the
writer, and there is at most one such goroutine. -/
def Config.Inv {σ Cache Logger : Type} (c : Config σ Cache Logger) : Prop :=
  c.shared.svc.mutex.readers = 0 ∧
  (∀ i, (c.frames i).holdsLock = true → c.shared.svc.mutex.writer = true) ∧
  (∀ i j, (c.frames i).holdsLock = true → (c.frames j).holdsLock = true → i = j)

/-- The configuration after goroutine `i` takes its next step, when it can. -/
def Config.advance {σ Cache Logger : Type} (c : Config σ Cache Logger) (i : Nat) :
    Config σ Cache Logger :=
  match step c.shared (c.frames i) with
  | some next => ⟨next.1, Function.update c.frames i next.2⟩
  | none => c

/-- Goroutines about to create the same user on the sample service. -/
def sampleStart : Config Nat Unit Unit :=
  ⟨sampleState sampleCountingDb 0, fun _ => .entry "ada" "ada@example.org"⟩

/-- The sample goroutines once goroutine 0 has entered `Save`. -/
def sampleSaving : Config Nat Unit Unit :=
  ((sampleStart.advance 0).advance 0).advance 0

/-! ## Properties of processData -/

/-- The loop of `processData` appends the upper-cased items, in order, to what
the result already holds. -/
theorem processData_loop (ToUpper : String → String) (data acc : List String) :
    data.foldl (fun result item => result ++ [ToUpper item]) acc = acc ++ data.map ToUpper := by
  induction data generalizing acc with
  | nil => simp
  | cons item rest ih => simp [ih]

/-- The result of `processData` is the input mapped through `ToUpper`. -/
theorem processData_eq_map (ToUpper : String → String) (data : List String) :
    processData ToUpper data = (data.map ToUpper, none) := by
  simp [processData, processData_loop]

/-- The function `processData` returns a nil error and a list as long as its
input whose element at each index is `ToUpper` of the input element there. -/
theorem processData_indexwise (ToUpper : String → String) (data : List String) :
    (processData ToUpper data).2 = none ∧
    (processData ToUpper data).1.length = data.length ∧
    (∀ i : Nat, (processData ToUpper data).1[i]? = (data[i]?).map ToUpper) ∧
    processData ToUpper [] = ([], none) := by
  refine ⟨?_, ?_, ?_, ?_⟩
  · simp [processData_eq_map]
  · simp [processData_eq_map]
  · intro i
    simp [processData_eq_map]
  · simp [processData_eq_map]

/-- The function `processData` returns its own results unchanged exactly when
`ToUpper` returns its own results unchanged. -/
theorem processData_idempotent_iff (ToUpper : String → String) :
    (∀ data, processData ToUpper (processData ToUpper data).1 = processData ToUpper data) ↔
      ∀ s, ToUpper (ToUpper s) = ToUpper s := by
  constructor
  · intro h s
    simpa [processData_eq_map] using h [s]
  · intro h data
    simp [processData_eq_map, h]

/-! ## Properties of handleUser and startServer -/

/-- Claim C1: for a request whose method is none of "GET", "POST", "PUT" and
"DELETE", `handleUser` makes one call, `http.Error` with the message
"Method not allowed" and the status 405, and calls no per-verb handler; so it
does for the empty method, "PATCH", "HEAD" and "get". -/
theorem handleUser_method_not_allowed (w : ResponseWriter) (r : Request)
    (hGet : r.Method ≠ "GET") (hPost : r.Method ≠ "POST")
    (hPut : r.Method ≠ "PUT") (hDelete : r.Method ≠ "DELETE") :
    handleUser w r = [.httpError w "Method not allowed" 405] ∧
    (∀ c ∈ handleUser w r, c.isVerbHandler = false) ∧
    (∀ m ∈ ["", "PATCH", "HEAD", "get"],
      handleUser w { r with Method := m } = [.httpError w "Method not allowed" 405]) := by
  have h : handleUser w r = [.httpError w "Method not allowed" 405] := by
    simp [handleUser, MethodGet, MethodPost, MethodPut, MethodDelete, StatusMethodNotAllowed,
      hGet, hPost, hPut, hDelete]
  refine ⟨h, ?_, ?_⟩
  · intro c hc
    rw [h] at hc
    simp at hc
    subst hc
    rfl
  · intro m hm
    simp at hm
    rcases hm with rfl | rfl | rfl | rfl <;>
      simp [handleUser, MethodGet, MethodPost, MethodPut, MethodDelete, StatusMethodNotAllowed]

/-- Claim C1 at a "PATCH" request. -/
theorem handleUser_method_not_allowed_witness :
    handleUser 7 ⟨"PATCH", "/users"⟩ = [.httpError 7 "Method not allowed" 405] :=
  (handleUser_method_not_allowed 7 ⟨"PATCH", "/users"⟩
    (by decide) (by decide) (by decide) (by decide)).1

/-- Claim C5: `handleUser` calls `getUserHandler` for "GET", `createUserHandler`
for "POST", `updateUserHandler` for "PUT" and `deleteUserHandler` for "DELETE",
once, with its own writer and request, and makes no other call, so it does not
write the 405 response; and which function it calls depends on the method only. -/
theorem handleUser_dispatch (w : ResponseWriter) (r : Request) :
    (r.Method = "GET" → handleUser w r = [.getUserHandler w r]) ∧
    (r.Method = "POST" → handleUser w r = [.createUserHandler w r]) ∧
    (r.Method = "PUT" → handleUser w r = [.updateUserHandler w r]) ∧
    (r.Method = "DELETE" → handleUser w r = [.deleteUserHandler w r]) ∧
    (r.Method ∈ ["GET", "POST", "PUT", "DELETE"] →
      ∀ c ∈ handleUser w r, c.callee ≠ .httpError) ∧
    (∀ (w' : ResponseWriter) (r' : Request), r'.Method = r.Method →
      (handleUser w' r').map Call.callee = (handleUser w r).map Call.callee) := by
  refine ⟨?_, ?_, ?_, ?_, ?_, ?_⟩
  · intro h
    simp [handleUser, MethodGet, h]
  · intro h
    simp [handleUser, MethodGet, MethodPost, h]
  · intro h
    simp [handleUser, MethodGet, MethodPost, MethodPut, h]
  · intro h
    simp [handleUser, MethodGet, MethodPost, MethodPut, MethodDelete, h]
  · intro h c hc
    simp at h
    rcases h with h | h | h | h <;>
      simp [handleUser, MethodGet, MethodPost, MethodPut, MethodDelete, h] at hc <;>
      subst hc <;> simp [Call.callee]
  · intro w' r' h
    simp only [handleUser, h]
    split_ifs <;> rfl

/-- Claim C5 at a "PUT" request. -/
theorem handleUser_dispatch_witness :
    handleUser 3 ⟨"PUT", "/users"⟩ = [.updateUserHandler 3 ⟨"PUT", "/users"⟩] :=
  (handleUser_dispatch 3 ⟨"PUT", "/users"⟩).2.2.1 rfl

/-- Claim C9: the server `startServer` builds listens on ":8080", has a read
timeout and a write timeout of 15 * 1000000000 nanoseconds each, and routes
exactly "/users" to `handleUser` and "/health" to `healthCheck`. -/
theorem startServer_config :
    startServer.server.Addr = ":8080" ∧
    startServer.server.ReadTimeout = 15 * 1000000000 ∧
    startServer.server.WriteTimeout = 15 * 1000000000 ∧
    startServer.server.Handler.routes =
      [("/users", HandlerFunc.handleUser), ("/health", HandlerFunc.healthCheck)] := by
  refine ⟨rfl, ?_, ?_, rfl⟩ <;> simp [startServer, wrapInt, Second]

/-! ## Properties of fetchData -/

/-- Claim C6: when the transport call fails, `fetchData` returns no data and an
error whose message is "failed to fetch data: " followed by the transport
error's message and which wraps that error; when the call succeeds with a
status other than 200, it returns no data and an error whose message is
"unexpected status code: " followed by the status in decimal; when the call
succeeds with status 200, it returns what reading the whole body returns. -/
theorem fetchData_cases {β : Type} (Get : String → Except GoError (Response β))
    (ReadAll : β → Option (List Nat) × Option GoError) (url : String) :
    (∀ e, Get url = .error e →
      (fetchData Get ReadAll url).data = none ∧
      ∃ err, (fetchData Get ReadAll url).err = some err ∧
        err.Error = "failed to fetch data: " ++ e.Error ∧ err.Unwrap = some e) ∧
    (∀ resp, Get url = .ok resp → resp.StatusCode ≠ 200 →
      (fetchData Get ReadAll url).data = none ∧
      ∃ err, (fetchData Get ReadAll url).err = some err ∧
        err.Error = "unexpected status code: " ++ toString resp.StatusCode ∧
        err.Unwrap = none) ∧
    (∀ resp, Get url = .ok resp → resp.StatusCode = 200 →
      (fetchData Get ReadAll url).data = (ReadAll resp.Body).1 ∧
      (fetchData Get ReadAll url).err = (ReadAll resp.Body).2) := by
  refine ⟨?_, ?_, ?_⟩
  · intro e h
    simp [fetchData, h, ErrorfW, GoError.Error, GoError.Unwrap]
  · intro resp h hcode
    simp [fetchData, h, StatusOK, hcode, ErrorfD, GoError.Error, GoError.Unwrap]
  · intro resp h hcode
    simp [fetchData, h, StatusOK, hcode]

/-- Claim C6 at a failing transport, at a 404 answer and at a 200 answer. -/
theorem fetchData_cases_witness :
    (∃ err, (fetchData sampleGetDown sampleReadAll "http://localhost/x").err = some err ∧
      err.Error = "failed to fetch data: dial tcp: connection refused" ∧
      err.Unwrap = some (.plain "dial tcp: connection refused")) ∧
    (∃ err,
      (fetchData (sampleGetStatus 404 [1, 2]) sampleReadAll "http://localhost/x").err =
        some err ∧
      err.Error = "unexpected status code: 404" ∧ err.Unwrap = none) ∧
    (fetchData (sampleGetStatus 200 [1, 2]) sampleReadAll "http://localhost/x").data =
      some [1, 2] := by
  have down := (fetchData_cases sampleGetDown sampleReadAll "http://localhost/x").1
    (.plain "dial tcp: connection refused") rfl
  have missing := (fetchData_cases (sampleGetStatus 404 [1, 2]) sampleReadAll
    "http://localhost/x").2.1 ⟨404, [1, 2]⟩ rfl (by decide)
  have found := (fetchData_cases (sampleGetStatus 200 [1, 2]) sampleReadAll
    "http://localhost/x").2.2 ⟨200, [1, 2]⟩ rfl rfl
  refine ⟨?_, ?_, found.1⟩
  · obtain ⟨_, err, herr, hmsg, hun⟩ := down
    exact ⟨err, herr, hmsg.trans (by decide), hun⟩
  · obtain ⟨_, err, herr, hmsg, hun⟩ := missing
    exact ⟨err, herr, hmsg.trans (by decide), hun⟩

/-! ## Properties of worker -/

/-- A product that fits the signed word is left alone by the reduction. -/
theorem wrapInt_double (bits : Nat) (hbits : 2 ≤ bits) (job : Int)
    (hlo : -2 ^ (bits - 2) ≤ job) (hhi : job < 2 ^ (bits - 2)) :
    wrapInt bits (job * 2) = job * 2 := by
  obtain ⟨k, rfl⟩ : ∃ k, bits = k + 2 := ⟨bits - 2, by omega⟩
  have hq : (0 : Int) < 2 ^ k := by positivity
  have h1 : (2 : Int) ^ (k + 2 - 1) = 2 * 2 ^ k := by
    rw [show k + 2 - 1 = k + 1 by omega, pow_succ]; ring
  have h2 : (2 : Int) ^ (k + 2) = 4 * 2 ^ k := by
    rw [pow_succ, pow_succ]; ring
  have h3 : k + 2 - 2 = k := by omega
  rw [h3] at hlo hhi
  unfold wrapInt
  rw [h1, h2]
  generalize (2 : Int) ^ k = q at *
  rw [Int.emod_eq_of_lt (by omega) (by omega)]
  omega

/-- A send with room left completes: the value joins what has been published,
the room shrinks by one, and the channel stays as open and as large as it was. -/
theorem Chan.send_of_room (results : Chan) (rcv : Receiver) (v : Int)
    (h : 0 < room results rcv) :
    ∃ next, results.send rcv v = some next ∧
      published next.1 next.2 = published results rcv ++ [v] ∧
      room next.1 next.2 + 1 = room results rcv ∧
      next.1.closed = results.closed ∧ next.1.capacity = results.capacity := by
  unfold Chan.send
  by_cases hlen : results.buffer.length < results.capacity
  · refine ⟨_, if_pos hlen, ?_, ?_, rfl, rfl⟩
    · simp [published]
    · simp only [room, List.length_append, List.length_singleton]
      omega
  · have hpend : rcv.pending ≠ 0 := by
      simp only [room] at h
      omega
    rw [if_neg hlen, if_neg hpend]
    cases hbuf : results.buffer with
    | nil =>
        refine ⟨_, rfl, ?_, ?_, rfl, rfl⟩
        · simp [published, hbuf]
        · simp only [room]
          omega
    | cons oldest rest =>
        have hl : results.buffer.length = rest.length + 1 := by simp [hbuf]
        refine ⟨_, rfl, ?_, ?_, rfl, rfl⟩
        · simp [published, hbuf]
        · simp only [room, List.length_append, List.length_cons, List.length_nil]
          omega

/-- A send with no room left never completes. -/
theorem Chan.send_of_no_room (results : Chan) (rcv : Receiver) (v : Int)
    (h : room results rcv = 0) : results.send rcv v = none := by
  simp only [room] at h
  unfold Chan.send
  rw [if_neg (by omega), if_pos (by omega)]

/-- The loop of `worker` on a closed jobs channel and an open results channel
with room for every job returns after publishing the reduced doubles, in order. -/
theorem workerLoop_returns (bits : Nat) (jobs : List Int) (results : Chan) (rcv : Receiver)
    (slept : Int) (hopen : results.closed = false) (hroom : jobs.length ≤ room results rcv) :
    ∃ results' rcv',
      workerLoop bits true jobs results rcv slept =
        .returned results' rcv' (slept + 100000000 * jobs.length) ∧
      published results' rcv' =
        published results rcv ++ jobs.map (fun job => wrapInt bits (job * 2)) ∧
      results'.closed = false ∧ results'.capacity = results.capacity := by
  induction jobs generalizing results rcv slept with
  | nil => exact ⟨results, rcv, by simp [workerLoop], by simp, hopen, rfl⟩
  | cons job rest ih =>
      have hsleep : wrapInt 64 (Millisecond * 100) = 100000000 := by
        simp [wrapInt, Millisecond]
      simp only [List.length_cons] at hroom
      obtain ⟨next, hsend, hpub, hnext, hcl, hcap⟩ :=
        Chan.send_of_room results rcv (wrapInt bits (job * 2)) (by omega)
      obtain ⟨results', rcv', hrun, hpub', hcl', hcap'⟩ :=
        ih next.1 next.2 (slept + 100000000) (by rw [hcl, hopen]) (by omega)
      refine ⟨results', rcv', ?_, ?_, hcl', by rw [hcap', hcap]⟩
      · rw [workerLoop, hopen, hsend, hsleep]
        simp only [Bool.false_eq_true, if_false]
        rw [hrun]
        simp only [List.length_cons, Nat.cast_add, Nat.cast_one]
        congr 1
        ring
      · rw [hpub', hpub]
        simp

/-- The loop of `worker` on an open results channel without room for every job
never returns: it stays in a send. -/
theorem workerLoop_blocks (bits : Nat) (jobsClosed : Bool) (jobs : List Int) (results : Chan)
    (rcv : Receiver) (slept : Int) (hopen : results.closed = false)
    (hroom : room results rcv < jobs.length) :
    ∃ results' rcv' slept',
      workerLoop bits jobsClosed jobs results rcv slept = .blockedSend results' rcv' slept' := by
  induction jobs generalizing results rcv slept with
  | nil => simp at hroom
  | cons job rest ih =>
      simp only [List.length_cons] at hroom
      by_cases h : room results rcv = 0
      · refine ⟨results, rcv, slept + wrapInt 64 (Millisecond * 100), ?_⟩
        rw [workerLoop, hopen, Chan.send_of_no_room results rcv _ h]
        simp
      · obtain ⟨next, hsend, _, hnext, hcl, _⟩ :=
          Chan.send_of_room results rcv (wrapInt bits (job * 2)) (by omega)
        obtain ⟨results', rcv', slept', hrun⟩ :=
          ih next.1 next.2 (slept + wrapInt 64 (Millisecond * 100)) (by rw [hcl, hopen])
            (by omega)
        refine ⟨results', rcv', slept', ?_⟩
        rw [workerLoop, hopen, hsend]
        simpa using hrun

/-- Claim C2, amended: with the jobs channel closed, the results channel open and
room on it for one value per job (free buffer slots and receives to come),
`worker` returns, having published one value per job, in the order of the jobs
and after what was published before, each the product `job * 2` reduced to the
signed `bits`-bit range of the type `int`, which is `job * 2` itself when the
job lies in `[-2^(bits-2), 2^(bits-2))`; on 64 bits the jobs 1, 2, 3 give 2, 4,
6, to a receiver of an unbuffered channel as into a buffer of three slots, and
no job gives no value, whatever the results channel. -/
theorem worker_doubles (bits : Nat) (jobs results : Chan) (rcv : Receiver)
    (hclosed : jobs.closed = true) (hopen : results.closed = false)
    (hroom : jobs.buffer.length ≤ room results rcv) :
    (∃ results' rcv',
      worker bits jobs results rcv =
        .returned results' rcv' (100000000 * jobs.buffer.length) ∧
      published results' rcv' =
        published results rcv ++ jobs.buffer.map (fun job => wrapInt bits (job * 2)) ∧
      results'.closed = false ∧ results'.capacity = results.capacity) ∧
    (2 ≤ bits → ∀ job ∈ jobs.buffer, -2 ^ (bits - 2) ≤ job → job < 2 ^ (bits - 2) →
      wrapInt bits (job * 2) = job * 2) ∧
    worker 64 ⟨[1, 2, 3], 3, true⟩ ⟨[], 0, false⟩ ⟨[], 3⟩ =
      .returned ⟨[], 0, false⟩ ⟨[2, 4, 6], 0⟩ 300000000 ∧
    worker 64 ⟨[1, 2, 3], 3, true⟩ ⟨[], 3, false⟩ ⟨[], 0⟩ =
      .returned ⟨[2, 4, 6], 3, false⟩ ⟨[], 0⟩ 300000000 ∧
    (∀ (capacity : Nat) (anyResults : Chan) (anyRcv : Receiver),
      worker bits ⟨[], capacity, true⟩ anyResults anyRcv = .returned anyResults anyRcv 0) := by
  refine ⟨?_, ?_, ?_, ?_, ?_⟩
  · obtain ⟨results', rcv', hrun, hpub, hcl, hcap⟩ :=
      workerLoop_returns bits jobs.buffer results rcv 0 hopen hroom
    refine ⟨results', rcv', ?_, hpub, hcl, hcap⟩
    rw [worker, hclosed, hrun]
    simp
  · intro hbits job _ hlo hhi
    exact wrapInt_double bits hbits job hlo hhi
  · simp [worker, workerLoop, Chan.send, wrapInt, Millisecond]
  · simp [worker, workerLoop, Chan.send, wrapInt, Millisecond]
  · intro capacity anyResults anyRcv
    simp [worker, workerLoop]

/-- Claim C2, amended, at the jobs 1, 2, 3, an unbuffered results channel and a
receiver that has taken 0 and will take three more values. -/
theorem worker_doubles_witness :
    ∃ results' rcv',
      worker 64 ⟨[1, 2, 3], 3, true⟩ ⟨[], 0, false⟩ ⟨[0], 3⟩ =
        .returned results' rcv' (100000000 * (3 : Nat)) ∧
      published results' rcv' =
        published ⟨[], 0, false⟩ ⟨[0], 3⟩ ++ [1, 2, 3].map (fun job => wrapInt 64 (job * 2)) ∧
      results'.closed = false ∧ results'.capacity = 0 :=
  (worker_doubles 64 ⟨[1, 2, 3], 3, true⟩ ⟨[], 0, false⟩ ⟨[0], 3⟩ rfl rfl (by decide)).1

/-- Claim C2 as stated fails three ways.  On 64 bits the single job 2^62 is
published as -2^63, not as the double 2^63.  On an unbuffered results channel
that nobody receives from, the jobs 1, 2, 3 publish nothing and the worker
never returns: it stays in its first send.  On a closed results channel the
first send panics. -/
theorem worker_as_stated_fails :
    (worker 64 ⟨[4611686018427387904], 1, true⟩ ⟨[], 1, false⟩ ⟨[], 0⟩ =
        .returned ⟨[-9223372036854775808], 1, false⟩ ⟨[], 0⟩ 100000000 ∧
      (-9223372036854775808 : Int) ≠ 4611686018427387904 * 2) ∧
    worker 64 ⟨[1, 2, 3], 3, true⟩ ⟨[], 0, false⟩ ⟨[], 0⟩ =
      .blockedSend ⟨[], 0, false⟩ ⟨[], 0⟩ 100000000 ∧
    worker 64 ⟨[1, 2, 3], 3, true⟩ ⟨[], 3, true⟩ ⟨[], 3⟩ = .panicked := by
  refine ⟨⟨?_, by decide⟩, ?_, ?_⟩
  · simp [worker, workerLoop, Chan.send, wrapInt, Millisecond]
  · simp [worker, workerLoop, Chan.send, wrapInt, Millisecond]
  · simp [worker, workerLoop]

/-! ## Properties of CreateUser -/

/-- A record just allocated is what its address points at. -/
theorem Heap.deref_alloc (h : Heap) (u : User) : (h.alloc u).2.deref (h.alloc u).1 = some u := by
  simp [Heap.alloc, Heap.deref]

/-- A call of `CreateUser` on a free lock returns: the record is built from the
arguments and the clock, `Save` is applied to it once, and the result follows
the error `Save` returned. -/
theorem CreateUser_free {σ Cache Logger : Type} (st : State σ Cache Logger)
    (name email : String) (hfree : st.svc.mutex.free = true) :
    CreateUser st name email =
      some
        { user :=
            match (st.svc.db.Save st.world.store
                (st.world.heap.alloc ⟨0, name, email, st.world.clock⟩).2
                (st.world.heap.alloc ⟨0, name, email, st.world.clock⟩).1).err with
            | some _ => none
            | none => some (st.world.heap.alloc ⟨0, name, email, st.world.clock⟩).1
          err :=
            (st.svc.db.Save st.world.store
                (st.world.heap.alloc ⟨0, name, email, st.world.clock⟩).2
                (st.world.heap.alloc ⟨0, name, email, st.world.clock⟩).1).err.map
              (ErrorfW "failed to save user: ")
          state :=
            { svc := { st.svc with mutex := { st.svc.mutex with writer := false } }
              world :=
                { st.world with
                  heap := (st.svc.db.Save st.world.store
                    (st.world.heap.alloc ⟨0, name, email, st.world.clock⟩).2
                    (st.world.heap.alloc ⟨0, name, email, st.world.clock⟩).1).heap
                  store := (st.svc.db.Save st.world.store
                    (st.world.heap.alloc ⟨0, name, email, st.world.clock⟩).2
                    (st.world.heap.alloc ⟨0, name, email, st.world.clock⟩).1).store }
              trace :=
                st.trace ++
                  [.mutexLock, .timeNow st.world.clock,
                    .newUser (st.world.heap.alloc ⟨0, name, email, st.world.clock⟩).1,
                    .dbSave (st.world.heap.alloc ⟨0, name, email, st.world.clock⟩).1,
                    .dbSaveReturn (st.svc.db.Save st.world.store
                      (st.world.heap.alloc ⟨0, name, email, st.world.clock⟩).2
                      (st.world.heap.alloc ⟨0, name, email, st.world.clock⟩).1).err,
                    .mutexUnlock] } } := by
  generalize hr : st.svc.db.Save st.world.store
      (st.world.heap.alloc ⟨0, name, email, st.world.clock⟩).2
      (st.world.heap.alloc ⟨0, name, email, st.world.clock⟩).1 = r
  simp only [CreateUser, run, step, RWMutex.Lock, RWMutex.Unlock, hfree, if_true, hr]
  cases herr : r.err <;> simp

/-- Claim C3: when `Save` returns an error, `CreateUser` returns no record and an
error whose message is "failed to save user: " followed by the message of the
error of `Save`, so it starts with that text and contains
"failed to save user", and which wraps the error of `Save`. -/
theorem CreateUser_save_fails {σ Cache Logger : Type} (st : State σ Cache Logger)
    (name email : String) (e : GoError) (hfree : st.svc.mutex.free = true)
    (hsave : (st.svc.db.Save st.world.store
        (st.world.heap.alloc ⟨0, name, email, st.world.clock⟩).2
        (st.world.heap.alloc ⟨0, name, email, st.world.clock⟩).1).err = some e) :
    ∃ out err, CreateUser st name email = some out ∧ out.user = none ∧
      out.err = some err ∧
      err.Error = "failed to save user: " ++ e.Error ∧
      "failed to save user: ".data <+: err.Error.data ∧
      "failed to save user".data <:+: err.Error.data ∧
      err.Unwrap = some e := by
  refine ⟨_, ErrorfW "failed to save user: " e, CreateUser_free st name email hfree, ?_, ?_,
    rfl, ?_, ?_, rfl⟩
  · simp only [hsave]
  · simp only [hsave, Option.map_some']
  · simp [ErrorfW, GoError.Error]
  · refine ⟨[], ": ".data ++ e.Error.data, ?_⟩
    simp [ErrorfW, GoError.Error]

/-- Claim C3 at a storage that refuses every record with "disk full". -/
theorem CreateUser_save_fails_witness :
    ∃ out err, CreateUser (sampleState sampleFailingDb ()) "ada" "ada@example.org" = some out ∧
      out.user = none ∧ out.err = some err ∧
      err.Error = "failed to save user: " ++ (GoError.plain "disk full").Error ∧
      "failed to save user: ".data <+: err.Error.data ∧
      "failed to save user".data <:+: err.Error.data ∧
      err.Unwrap = some (.plain "disk full") :=
  CreateUser_save_fails (sampleState sampleFailingDb ()) "ada" "ada@example.org"
    (.plain "disk full") rfl rfl

/-- Claim C4: when `Save` returns no error and leaves the record it is given as
it is, `CreateUser` returns a nil error and a pointer to a record with the given
name and email, the instant read from the clock during the call and the ID 0;
that pointer is the argument of the one call of `Save`. -/
theorem CreateUser_save_succeeds {σ Cache Logger : Type} (st : State σ Cache Logger)
    (name email : String) (hfree : st.svc.mutex.free = true)
    (hsave : (st.svc.db.Save st.world.store
        (st.world.heap.alloc ⟨0, name, email, st.world.clock⟩).2
        (st.world.heap.alloc ⟨0, name, email, st.world.clock⟩).1).err = none)
    (hkeep : (st.svc.db.Save st.world.store
        (st.world.heap.alloc ⟨0, name, email, st.world.clock⟩).2
        (st.world.heap.alloc ⟨0, name, email, st.world.clock⟩).1).heap.deref
          (st.world.heap.alloc ⟨0, name, email, st.world.clock⟩).1 =
      (st.world.heap.alloc ⟨0, name, email, st.world.clock⟩).2.deref
        (st.world.heap.alloc ⟨0, name, email, st.world.clock⟩).1) :
    ∃ out p now calls, CreateUser st name email = some out ∧ out.err = none ∧
      out.user = some p ∧
      out.state.world.heap.deref p =
        some { ID := 0, Name := name, Email := email, Created := now } ∧
      out.state.trace = st.trace ++ calls ∧
      calls.filter Event.isTimeNow = [.timeNow now] ∧
      now = st.world.clock ∧
      calls.filter Event.isSave = [.dbSave p] := by
  refine ⟨_, (st.world.heap.alloc ⟨0, name, email, st.world.clock⟩).1, st.world.clock, _,
    CreateUser_free st name email hfree, ?_, ?_, ?_, rfl, ?_, rfl, ?_⟩
  · simp only [hsave, Option.map_none']
  · simp only [hsave]
  · simp only [hkeep, Heap.deref_alloc]
  · simp [List.filter, Event.isTimeNow]
  · simp [List.filter, Event.isSave]

/-- Claim C4 at a storage that accepts every record. -/
theorem CreateUser_save_succeeds_witness :
    ∃ out p now calls, CreateUser (sampleState sampleCountingDb 0) "ada" "ada@example.org" =
        some out ∧ out.err = none ∧ out.user = some p ∧
      out.state.world.heap.deref p =
        some { ID := 0, Name := "ada", Email := "ada@example.org", Created := now } ∧
      out.state.trace = (sampleState sampleCountingDb 0).trace ++ calls ∧
      calls.filter Event.isTimeNow = [.timeNow now] ∧
      now = (sampleState sampleCountingDb 0).world.clock ∧
      calls.filter Event.isSave = [.dbSave p] :=
  CreateUser_save_succeeds (sampleState sampleCountingDb 0) "ada" "ada@example.org" rfl rfl rfl

/-- Claim C8: a call of `CreateUser` calls `Save` once, whether `Save` fails or
not: its calls are the lock, the clock read, the allocation, one call of `Save`
with its return and the unlock, and the storage and the heap it leaves are
those one application of `Save` to the storage and the heap with the new
record leaves.  It makes no call on the cache or on the logger and leaves the
fields `db`, `cache` and `logger` of the service as they were. -/
theorem CreateUser_only_storage {σ Cache Logger : Type} (st : State σ Cache Logger)
    (name email : String) (hfree : st.svc.mutex.free = true) :
    ∃ out calls, CreateUser st name email = some out ∧
      out.state.trace = st.trace ++ calls ∧
      calls =
        [.mutexLock, .timeNow st.world.clock,
          .newUser (st.world.heap.alloc ⟨0, name, email, st.world.clock⟩).1,
          .dbSave (st.world.heap.alloc ⟨0, name, email, st.world.clock⟩).1,
          .dbSaveReturn (st.svc.db.Save st.world.store
            (st.world.heap.alloc ⟨0, name, email, st.world.clock⟩).2
            (st.world.heap.alloc ⟨0, name, email, st.world.clock⟩).1).err,
          .mutexUnlock] ∧
      out.state.world.store =
        (st.svc.db.Save st.world.store
          (st.world.heap.alloc ⟨0, name, email, st.world.clock⟩).2
          (st.world.heap.alloc ⟨0, name, email, st.world.clock⟩).1).store ∧
      out.state.world.heap =
        (st.svc.db.Save st.world.store
          (st.world.heap.alloc ⟨0, name, email, st.world.clock⟩).2
          (st.world.heap.alloc ⟨0, name, email, st.world.clock⟩).1).heap ∧
      (out.err = none ↔
        (st.svc.db.Save st.world.store
          (st.world.heap.alloc ⟨0, name, email, st.world.clock⟩).2
          (st.world.heap.alloc ⟨0, name, email, st.world.clock⟩).1).err = none) ∧
      (calls.filter Event.isSave).length = 1 ∧
      (∀ c ∈ calls, c.isCacheOrLogger = false) ∧
      out.state.svc.db = st.svc.db ∧
      out.state.svc.cache = st.svc.cache ∧
      out.state.svc.logger = st.svc.logger := by
  refine ⟨_, _, CreateUser_free st name email hfree, rfl, rfl, rfl, rfl, ?_, ?_, ?_,
    rfl, rfl, rfl⟩
  · simp
  · simp [List.filter, Event.isSave]
  · intro c hc
    simp at hc
    rcases hc with rfl | rfl | rfl | rfl | rfl | rfl <;> rfl

/-- Claim C8 at a storage that counts the calls of `Save` and refuses every
record: after the call the count is 1. -/
theorem CreateUser_only_storage_witness :
    ∃ out calls,
      CreateUser (sampleState sampleRefusingDb 0) "ada" "ada@example.org" = some out ∧
      out.state.trace = calls ∧
      calls =
        [.mutexLock, .timeNow 1700000000, .newUser 0, .dbSave 0,
          .dbSaveReturn (some (.plain "disk full")), .mutexUnlock] ∧
      out.state.world.store = 1 ∧
      out.state.world.heap =
        ⟨[{ ID := 0, Name := "ada", Email := "ada@example.org", Created := 1700000000 }]⟩ ∧
      out.err ≠ none ∧
      (calls.filter Event.isSave).length = 1 ∧
      (∀ c ∈ calls, c.isCacheOrLogger = false) ∧
      out.state.svc.db = sampleRefusingDb ∧
      out.state.svc.cache = () ∧
      out.state.svc.logger = () := by
  obtain ⟨out, calls, hrun, htrace, hcalls, hstore, hheap, herr, hone, hnone, hdb, hcache,
    hlogger⟩ :=
    CreateUser_only_storage (sampleState sampleRefusingDb 0) "ada" "ada@example.org" rfl
  refine ⟨out, calls, hrun, ?_, hcalls, hstore, hheap, ?_, hone, hnone, hdb, hcache, hlogger⟩
  · simpa [sampleState] using htrace
  · intro h
    exact absurd (herr.1 h) (by decide)

/-! ## Mutual exclusion of CreateUser -/

/-- An activation inside `Save` is between its lock and its unlock. -/
theorem Frame.holdsLock_of_inSave (f : Frame) (h : f.inSave = true) : f.holdsLock = true := by
  cases f <;> simp_all [Frame.inSave, Frame.holdsLock]

/-- The invariant holds where the goroutines start. -/
theorem Config.inv_of_initial {σ Cache Logger : Type} (c : Config σ Cache Logger)
    (h : c.initial) : c.Inv := by
  obtain ⟨hfree, hentry⟩ := h
  simp only [RWMutex.free, Bool.and_eq_true, Bool.not_eq_true', beq_iff_eq] at hfree
  refine ⟨hfree.2, ?_, ?_⟩
  · intro i hi
    obtain ⟨name, email, hf⟩ := hentry i
    simp [hf, Frame.holdsLock] at hi
  · intro i j hi
    obtain ⟨name, email, hf⟩ := hentry i
    simp [hf, Frame.holdsLock] at hi

/-- A move that keeps the lock as it is and moves the goroutine holding it to
another control point inside the locked region keeps the invariant. -/
theorem Config.inv_of_inner {σ Cache Logger : Type} (c : Config σ Cache Logger)
    (st' : State σ Cache Logger) (i : Nat) (f' : Frame) (hinv : c.Inv)
    (hm : st'.svc.mutex = c.shared.svc.mutex) (hold : (c.frames i).holdsLock = true) :
    Config.Inv ⟨st', Function.update c.frames i f'⟩ := by
  obtain ⟨hr, hw, hu⟩ := hinv
  refine ⟨by simpa [hm] using hr, ?_, ?_⟩
  · intro k _
    simpa [hm] using hw i hold
  · intro a b ha hb
    have hai : a = i := by
      by_cases h : a = i
      · exact h
      · simp only [Function.update_noteq h] at ha
        exact hu a i ha hold
    have hbi : b = i := by
      by_cases h : b = i
      · exact h
      · simp only [Function.update_noteq h] at hb
        exact hu b i hb hold
    rw [hai, hbi]

/-- A move that leaves the lock alone and takes a goroutine from outside the
locked region to outside the locked region keeps the invariant. -/
theorem Config.inv_of_outer {σ Cache Logger : Type} (c : Config σ Cache Logger)
    (st' : State σ Cache Logger) (i : Nat) (f' : Frame) (hinv : c.Inv)
    (hm : st'.svc.mutex = c.shared.svc.mutex) (hout : f'.holdsLock = false) :
    Config.Inv ⟨st', Function.update c.frames i f'⟩ := by
  obtain ⟨hr, hw, hu⟩ := hinv
  have key : ∀ k, (Function.update c.frames i f' k).holdsLock = true →
      (c.frames k).holdsLock = true := by
    intro k hk
    by_cases h : k = i
    · subst h
      simp [hout] at hk
    · simpa [Function.update_noteq h] using hk
  refine ⟨by simpa [hm] using hr, ?_, ?_⟩
  · intro k hk
    simpa [hm] using hw k (key k hk)
  · intro a b ha hb
    exact hu a b (key a ha) (key b hb)

/-- Every move of the system keeps the invariant. -/
theorem Config.inv_of_step {σ Cache Logger : Type} (c c' : Config σ Cache Logger)
    (hinv : c.Inv) (hs : Config.Step c c') : c'.Inv := by
  cases hs with
  | tick t => exact hinv
  | call i user err name email h =>
      exact Config.inv_of_outer c c.shared i _ hinv rfl rfl
  | thread i st' f' h =>
      obtain ⟨hr, hw, hu⟩ := hinv
      cases hf : c.frames i with
      | entry name email =>
          rw [hf] at h
          simp only [step, RWMutex.Lock] at h
          by_cases hfree : c.shared.svc.mutex.free = true
          · simp only [hfree, if_true, Option.some.injEq, Prod.mk.injEq] at h
            obtain ⟨rfl, rfl⟩ := h
            simp only [RWMutex.free, Bool.and_eq_true, Bool.not_eq_true', beq_iff_eq] at hfree
            have nobody : ∀ k, (c.frames k).holdsLock = true → False := by
              intro k hk
              have := hw k hk
              simp [hfree.1] at this
            have key : ∀ k, (Function.update c.frames i (Frame.locked name email) k).holdsLock
                = true → k = i := by
              intro k hk
              by_cases hki : k = i
              · exact hki
              · simp only [Function.update_noteq hki] at hk
                exact (nobody k hk).elim
            refine ⟨hr, fun _ _ => rfl, ?_⟩
            intro a b ha hb
            rw [key a ha, key b hb]
          · simp [hfree] at h
      | locked name email =>
          rw [hf] at h
          simp only [step, Option.some.injEq, Prod.mk.injEq] at h
          obtain ⟨rfl, rfl⟩ := h
          exact Config.inv_of_inner c _ i _ ⟨hr, hw, hu⟩ rfl (by rw [hf]; rfl)
      | built user =>
          rw [hf] at h
          simp only [step, Option.some.injEq, Prod.mk.injEq] at h
          obtain ⟨rfl, rfl⟩ := h
          exact Config.inv_of_inner c _ i _ ⟨hr, hw, hu⟩ rfl (by rw [hf]; rfl)
      | saving user =>
          rw [hf] at h
          simp only [step, Option.some.injEq, Prod.mk.injEq] at h
          obtain ⟨rfl, rfl⟩ := h
          exact Config.inv_of_inner c _ i _ ⟨hr, hw, hu⟩ rfl (by rw [hf]; rfl)
      | saved user err =>
          rw [hf] at h
          have hold : (c.frames i).holdsLock = true := by rw [hf]; rfl
          have hwriter := hw i hold
          simp only [step, RWMutex.Unlock, hwriter, if_true] at h
          have nobody : ∀ k, (Function.update c.frames i f' k).holdsLock = true → False := by
            intro k hk
            by_cases hki : k = i
            · subst hki
              cases err <;>
                simp only [Option.some.injEq, Prod.mk.injEq] at h <;>
                obtain ⟨_, rfl⟩ := h <;>
                simp [Frame.holdsLock] at hk
            · simp only [Function.update_noteq hki] at hk
              exact hki (hu k i hk hold)
          have hmutex : st'.svc.mutex = { c.shared.svc.mutex with writer := false } := by
            cases err <;>
              simp only [Option.some.injEq, Prod.mk.injEq] at h <;>
              obtain ⟨rfl, _⟩ := h <;> rfl
          refine ⟨by simpa [hmutex] using hr, ?_, ?_⟩
          · intro k hk
            exact (nobody k hk).elim
          · intro a b ha
            exact (nobody a ha).elim
      | returned user err =>
          rw [hf] at h
          simp [step] at h

/-- The invariant holds in every configuration the goroutines can reach. -/
theorem Config.inv_of_reachable {σ Cache Logger : Type} (c : Config σ Cache Logger)
    (h : c.Reachable) : c.Inv := by
  induction h with
  | start c h => exact Config.inv_of_initial c h
  | next c c' _ hs ih => exact Config.inv_of_step c c' ih hs

/-- A step taken by one goroutine leads to a reachable configuration. -/
theorem Config.reachable_advance {σ Cache Logger : Type} (c : Config σ Cache Logger)
    (i : Nat) (h : c.Reachable) : (c.advance i).Reachable := by
  unfold Config.advance
  cases hstep : step c.shared (c.frames i) with
  | none => exact h
  | some next => exact Config.Reachable.next c _ h (Config.Step.thread c i next.1 next.2 hstep)

/-- Claim C7: a call of `CreateUser` started on a free lock returns with the lock
free, whatever `Save` returns; its calls are, in order, the lock, the clock
read and the allocation of the record, the call of `Save` and its return, and
the unlock; and among goroutines calling `CreateUser` on one service, started
with the lock free, a goroutine inside `Save` holds the lock as the writer and
no two goroutines are inside `Save` at once. -/
theorem CreateUser_exclusive {σ Cache Logger : Type} (st : State σ Cache Logger)
    (name email : String) (hfree : st.svc.mutex.free = true) :
    (∃ out p err, CreateUser st name email = some out ∧
      out.state.trace = st.trace ++
        [.mutexLock, .timeNow st.world.clock, .newUser p, .dbSave p, .dbSaveReturn err,
          .mutexUnlock] ∧
      out.state.svc.mutex.free = true) ∧
    (∀ c : Config σ Cache Logger, c.Reachable →
      (∀ i, (c.frames i).holdsLock = true → c.shared.svc.mutex.writer = true) ∧
      (∀ i, (c.frames i).inSave = true → c.shared.svc.mutex.writer = true) ∧
      (∀ i j, (c.frames i).holdsLock = true → (c.frames j).holdsLock = true → i = j) ∧
      (∀ i j, (c.frames i).inSave = true → (c.frames j).inSave = true → i = j)) := by
  refine ⟨⟨_, _, _, CreateUser_free st name email hfree, rfl, ?_⟩, ?_⟩
  · simp only [RWMutex.free, Bool.and_eq_true, Bool.not_eq_true', beq_iff_eq] at hfree
    simp [RWMutex.free, hfree.2]
  · intro c hc
    obtain ⟨_, hw, hu⟩ := Config.inv_of_reachable c hc
    refine ⟨hw, ?_, hu, ?_⟩
    · intro i hi
      exact hw i (Frame.holdsLock_of_inSave _ hi)
    · intro i j hi hj
      exact hu i j (Frame.holdsLock_of_inSave _ hi) (Frame.holdsLock_of_inSave _ hj)

/-- Claim C7 at the sample service: a call on its free lock ends with the lock
free, and with goroutine 0 inside `Save` the lock is held and no other
goroutine is inside `Save`. -/
theorem CreateUser_exclusive_witness :
    (∃ out, CreateUser (sampleState sampleCountingDb 0) "ada" "ada@example.org" = some out ∧
      out.state.svc.mutex.free = true) ∧
    (sampleSaving.frames 0).inSave = true ∧
    sampleSaving.shared.svc.mutex.writer = true ∧
    (∀ j, (sampleSaving.frames j).inSave = true → 0 = j) := by
  have h := CreateUser_exclusive (sampleState sampleCountingDb 0) "ada" "ada@example.org" rfl
  have hreach : sampleSaving.Reachable := by
    apply Config.reachable_advance
    apply Config.reachable_advance
    apply Config.reachable_advance
    exact Config.Reachable.start _ ⟨rfl, fun _ => ⟨_, _, rfl⟩⟩
  obtain ⟨⟨out, _, _, hout, _, hlock⟩, hconc⟩ := h
  have hin : (sampleSaving.frames 0).inSave = true := rfl
  exact ⟨⟨out, hout, hlock⟩, hin, (hconc _ hreach).2.1 0 hin,
    fun j hj => (hconc _ hreach).2.2.2 0 j hin hj⟩

end GoPatterns
